import Mathlib

/-!
Shallow embedding of the Monte Carlo notebooks of the repository
(`monte_carlo_hoop_strength.ipynb` and the integration notebook).

Conventions of the embedding:
* Python/numpy floating-point scalars are modelled by exact rationals `ℚ`
  wherever the computation stays finite; the one claim about IEEE-754
  non-finite values uses the dedicated type `FV` below.
* Pseudo-random draws are external inputs: a cell that calls `rvs()` or
  `numpy.random.uniform` is embedded as a function of the list (or stream)
  of values those calls return.
* External transcendental library functions (`numpy.sin`, `numpy.cos`) are
  oracle parameters of type `ℚ → ℚ`.
-/

namespace MC

/-! ### monte_carlo_hoop_strength.ipynb -/

/-- The `simulated_stress` cell: `P = 10; return P * radius / W`, as a function
of the two values the normal `rvs()` calls return. -/
def simulated_stress (radius W : ℚ) : ℚ :=
  let P : ℚ := 10
  P * radius / W

/-- The failure-counting loop of the cell
`for i in range(N): ... if stresses[i] > yield_strengths[i]: failures += 1`,
as a fold over the list of (stress, strength) pairs the N trials produced,
threading the `failures` accumulator. -/
def failLoop : List (ℚ × ℚ) → ℕ → ℕ
  | [], failures => failures
  | (stress, strength) :: rest, failures =>
      failLoop rest (if stress > strength then failures + 1 else failures)

/-- The probability cell `failures / float(N)`: true (float) division of the
final count by the number of trials. -/
def failureProbability (trials : List (ℚ × ℚ)) : ℚ :=
  (failLoop trials 0 : ℚ) / (trials.length : ℚ)

/-- The number of trials whose stress strictly exceeds their strength
(specification-side closed form for the loop's count). -/
def failCount (trials : List (ℚ × ℚ)) : ℕ :=
  (trials.filter fun t => decide (t.1 > t.2)).length

/-- The vectorized cell's stress array `P * radius / W` (elementwise, `P = 10`). -/
def vecStress (radius W : List ℚ) : List ℚ :=
  (radius.zip W).map fun p => 10 * p.1 / p.2

/-- The vectorized cell's `((P * radius / W) > yield_strength).sum()`:
elementwise boolean comparison summed as 0/1 integers. -/
def vecFailures (stress strength : List ℚ) : ℕ :=
  ((stress.zip strength).map fun p => if p.1 > p.2 then 1 else 0).sum

/-- The vectorized cell's final expression
`((P * radius / W) > yield_strength).sum() / float(N)`. -/
def vecProbability (stress strength : List ℚ) : ℚ :=
  (vecFailures stress strength : ℚ) / (stress.length : ℚ)

/-! ### The integration notebook -/

/-- The running-sum loop `accum = 0; for i in range(N): ... accum += f(sample)`
shared by the three integral cells, threading the `accum` accumulator. -/
def accumLoop {α : Type} (f : α → ℚ) : List α → ℚ → ℚ
  | [], accum => accum
  | x :: rest, accum => accumLoop f rest (accum + f x)

/-- Integrand of the first cell: `x**2`. -/
def integrand1 (x : ℚ) : ℚ := x ^ 2

/-- Integrand of the second cell: `x**2 + 4*x*numpy.sin(x)`, with `numpy.sin`
an oracle parameter. -/
def integrand2 (sin : ℚ → ℚ) (x : ℚ) : ℚ := x ^ 2 + 4 * x * sin x

/-- Integrand of the 2D cell: `numpy.cos(x**4) + 3 * y * y`, with `numpy.cos`
an oracle parameter. -/
def integrand2D (cos : ℚ → ℚ) (p : ℚ × ℚ) : ℚ := cos (p.1 ^ 4) + 3 * p.2 * p.2

/-- The first cell's `measure = 5 - 1`. -/
def measure1 : ℚ := 5 - 1

/-- The second cell's `measure = 3 - 2`. -/
def measure2 : ℚ := 3 - 2

/-- The 2D cell's `measure = 2 * 1`. -/
def measure2D : ℚ := 2 * 1

/-- First cell's result `measure * accum/float(N)`, as a function of the list
of values `numpy.random.uniform(1, 5)` returned. -/
def integralEstimate1 (xs : List ℚ) : ℚ :=
  measure1 * accumLoop integrand1 xs 0 / (xs.length : ℚ)

/-- Second cell's result `measure * accum/float(N)`, as a function of the list
of values `numpy.random.uniform(2, 3)` returned. -/
def integralEstimate2 (sin : ℚ → ℚ) (xs : List ℚ) : ℚ :=
  measure2 * accumLoop (integrand2 sin) xs 0 / (xs.length : ℚ)

/-- 2D cell's result `measure * accum/float(N)`, as a function of the list of
pairs the `numpy.random.uniform(4, 6)` / `numpy.random.uniform(0, 1)` calls
returned. -/
def integralEstimate2D (cos : ℚ → ℚ) (ps : List (ℚ × ℚ)) : ℚ :=
  measure2D * accumLoop (integrand2D cos) ps 0 / (ps.length : ℚ)

/-! ### The process-wide global generator

Every `rvs()` call in the hoop-strength notebook draws from scipy's shared
global generator and no seed is ever set.  The global generator is embedded
as a stream `g : ℕ → ℚ` of the values successive draws return together with a
cursor giving the position of the next unconsumed value; each trial of the
failure experiment consumes three draws (radius, wall thickness, strength). -/

/-- The (stress, strength) pairs the N trials produce when the draws come from
the global stream `g` starting at cursor `pos`. -/
def globalTrials (g : ℕ → ℚ) : ℕ → ℕ → List (ℚ × ℚ)
  | _, 0 => []
  | pos, n + 1 =>
      (simulated_stress (g pos) (g (pos + 1)), g (pos + 2)) ::
        globalTrials g (pos + 3) n

/-- One invocation of the whole failure-probability computation starting at
cursor `pos` of the global stream: the probability estimate, and the cursor
the global generator has advanced to (3 draws per trial). -/
def runFailureExpGlobal (g : ℕ → ℚ) (pos N : ℕ) : ℚ × ℕ :=
  (failureProbability (globalTrials g pos N), pos + 3 * N)

/-- A concrete global-generator stream: the first invocation's trial reads
radius 60, wall thickness 1, strength 200; the second invocation's trial reads
radius 60, wall thickness 4, strength 200. -/
def gEx : ℕ → ℚ := fun i =>
  if i = 0 then 60 else if i = 1 then 1 else if i = 2 then 200
  else if i = 3 then 60 else if i = 4 then 4 else 200

/-! ### Spec-modelled Sampler and Driver

The notebooks call `numpy.random.uniform` / `rvs()` directly with literal,
always-valid parameters and a hard-coded N, so the configurable Sampler and
the validating experiment driver exist only in the specification.  They are
modelled here from the spec's words. -/

/-- Modelled from the spec: the tagged Distribution spec variants
`Normal{mean, coefficientOfVariation}` (standard deviation = mean × CV) and
`Uniform{low, high}`. -/
inductive DistSpec where
  | normal (mean cv : ℚ)
  | uniform (low high : ℚ)

/-- Modelled from the spec: the `InvalidParameter` error kind (the only error
kind reported at configuration time). -/
inductive MCError where
  | invalidParameter
deriving DecidableEq

/-- Modelled from the spec: the Sampler contract `draw(spec) -> real`, missing
from the notebooks.  `u` is the underlying generator's unit draw in `[0, 1)`
and `normalTransform` is the oracle mapping a unit draw to a standard normal
deviate.  For `Uniform{low, high}` it requires `low < high`, else fails with
`InvalidParameter`; a valid uniform draw is `low + (high - low) * u`. -/
def draw (normalTransform : ℚ → ℚ) (spec : DistSpec) (u : ℚ) : Except MCError ℚ :=
  match spec with
  | .normal mean cv => .ok (mean + mean * cv * normalTransform u)
  | .uniform low high =>
      if low < high then .ok (low + (high - low) * u)
      else .error .invalidParameter

/-- The Result of the failure-probability experiment: the probability estimate
plus N. -/
structure FailureResult where
  probability : ℚ
  nTrials : ℕ
deriving DecidableEq

/-- Modelled from the spec: `runFailureProbabilityExperiment`, validating the
configuration (N = 0 is rejected with `InvalidParameter` before any trial
executes, i.e. before the global stream is consulted) and otherwise running
the notebook's counting loop over N trials. -/
def runFailureProbabilityExperiment (g : ℕ → ℚ) (N : ℕ) :
    Except MCError FailureResult :=
  if N = 0 then .error .invalidParameter
  else .ok ⟨failureProbability (globalTrials g 0 N), N⟩

/-! ### IEEE-754 non-finite values

`rvs()` returns numpy `float64` scalars, and numpy division of a nonzero
finite `float64` by `0.0` returns a signed infinity (with a warning, not an
exception), while every comparison against NaN is false and
`inf > finite` is true.  `FV` models the value space of those operations:
finite values are kept as exact rationals, plus the two infinities and NaN. -/

/-- A numpy `float64` value as it occurs in the notebook's computations:
finite (kept exact), +inf, -inf, or NaN. -/
inductive FV where
  | fin (q : ℚ)
  | inf
  | ninf
  | nan
deriving DecidableEq

/-- numpy `float64` strict `>`: true for finite values by value comparison,
`inf > finite` and `inf > -inf` and `finite > -inf` are true, every comparison
involving NaN is false, and nothing exceeds `inf` (or falls below `-inf`). -/
def FV.gt : FV → FV → Bool
  | .fin a, .fin b => decide (a > b)
  | .inf, .fin _ => true
  | .inf, .ninf => true
  | .fin _, .ninf => true
  | _, _ => false

/-- `simulated_stress` on `float64` inputs where the wall thickness may be
exactly zero: `10 * radius / 0.0` is `inf` for positive radius, `-inf` for
negative radius, NaN for `0/0`; otherwise the finite quotient. -/
def simulated_stressFV (radius W : ℚ) : FV :=
  if W = 0 then
    if 10 * radius > 0 then .inf
    else if 10 * radius < 0 then .ninf
    else .nan
  else .fin (10 * radius / W)

/-- The failure-counting loop over `float64` trial values, using the numpy
comparison `FV.gt`. -/
def failLoopFV : List (FV × FV) → ℕ → ℕ
  | [], failures => failures
  | (stress, strength) :: rest, failures =>
      failLoopFV rest (if stress.gt strength then failures + 1 else failures)

/-- `failures / float(N)` over `float64` trial values. -/
def failureProbabilityFV (trials : List (FV × FV)) : ℚ :=
  (failLoopFV trials 0 : ℚ) / (trials.length : ℚ)

/-! ### Helper lemmas -/

/-- Threading the accumulator through the failure loop just adds it at the end. -/
theorem failLoop_acc (l : List (ℚ × ℚ)) : ∀ a, failLoop l a = a + failLoop l 0 := by
  induction l with
  | nil => intro a; simp [failLoop]
  | cons t rest ih =>
      intro a
      obtain ⟨s, y⟩ := t
      by_cases h : s > y
      · simp only [failLoop, if_pos h]
        rw [ih (a + 1), ih (0 + 1)]
        omega
      · simp only [failLoop, if_neg h]
        exact ih a

/-- The failure loop computes the number of trials with stress strictly above
strength. -/
theorem failLoop_eq_failCount (l : List (ℚ × ℚ)) : failLoop l 0 = failCount l := by
  induction l with
  | nil => rfl
  | cons t rest ih =>
      obtain ⟨s, y⟩ := t
      by_cases h : s > y
      · simp only [failLoop, if_pos h]
        rw [failLoop_acc rest (0 + 1), ih]
        simp [failCount, List.filter_cons, h]
        omega
      · simp only [failLoop, if_neg h]
        rw [ih]
        simp [failCount, List.filter_cons, h]

/-- The failure count never exceeds the number of trials processed. -/
theorem failLoop_le_length (l : List (ℚ × ℚ)) : failLoop l 0 ≤ l.length := by
  rw [failLoop_eq_failCount]
  exact List.length_filter_le _ l

/-- The probability estimate is nonnegative. -/
theorem failureProbability_nonneg (trials : List (ℚ × ℚ)) :
    0 ≤ failureProbability trials := by
  unfold failureProbability
  positivity

/-- With at least one trial, the probability estimate is at most one. -/
theorem failureProbability_le_one (trials : List (ℚ × ℚ))
    (h : 0 < trials.length) : failureProbability trials ≤ 1 := by
  unfold failureProbability
  rw [div_le_one (by exact_mod_cast h)]
  exact_mod_cast failLoop_le_length trials

/-- Threading the accumulator through the integral loop just adds the map-sum. -/
theorem accumLoop_eq_sum {α : Type} (f : α → ℚ) (l : List α) :
    ∀ accum, accumLoop f l accum = accum + (l.map f).sum := by
  induction l with
  | nil => intro a; simp [accumLoop]
  | cons x rest ih =>
      intro a
      simp only [accumLoop, List.map_cons, List.sum_cons, ih]
      ring

/-! ### Claim theorems -/

/-- C1: for every run of the failure-probability experiment with N trials, the
final probability estimate equals count / N with true (float, not integer)
division, where count is the number of trials whose stress is strictly greater
than their strength; a trial with stress exactly equal to strength leaves the
count unchanged. -/
theorem failure_probability_is_strict_count_div_N
    (trials : List (ℚ × ℚ)) (N : ℕ) (h : trials.length = N) :
    failureProbability trials = (failCount trials : ℚ) / (N : ℚ)
    ∧ ∀ v rest, failLoop ((v, v) :: rest) 0 = failLoop rest 0 := by
  constructor
  · rw [failureProbability, failLoop_eq_failCount, h]
  · intro v rest
    simp [failLoop]

/-- Witness for C1 on the concrete trial list [(3, 2), (2, 2)]. -/
theorem failure_probability_is_strict_count_div_N_witness :
    failureProbability [((3 : ℚ), (2 : ℚ)), (2, 2)]
        = (failCount [((3 : ℚ), (2 : ℚ)), (2, 2)] : ℚ) / ((2 : ℕ) : ℚ)
    ∧ ∀ v rest, failLoop ((v, v) :: rest) 0 = failLoop rest 0 :=
  failure_probability_is_strict_count_div_N [(3, 2), (2, 2)] 2 rfl

/-- C3: with N > 0 trials the probability estimate lies in [0, 1], and after
every loop iteration the failure count is bounded by the number of trials
executed so far. -/
theorem probability_in_unit_interval (trials : List (ℚ × ℚ))
    (hpos : 0 < trials.length) :
    0 ≤ failureProbability trials ∧ failureProbability trials ≤ 1
    ∧ ∀ k, failLoop (trials.take k) 0 ≤ (trials.take k).length :=
  ⟨failureProbability_nonneg trials, failureProbability_le_one trials hpos,
    fun k => failLoop_le_length (trials.take k)⟩

/-- Witness for C3 on the concrete trial list [(1, 2)]. -/
theorem probability_in_unit_interval_witness :
    0 ≤ failureProbability [((1 : ℚ), (2 : ℚ))]
    ∧ failureProbability [((1 : ℚ), (2 : ℚ))] ≤ 1
    ∧ ∀ k, failLoop ([((1 : ℚ), (2 : ℚ))].take k) 0 ≤ ([((1 : ℚ), (2 : ℚ))].take k).length :=
  probability_in_unit_interval [(1, 2)] (by simp)

/-- C4: the hoop-stress evaluator returns exactly pressure * radius /
wallThickness with the fixed pressure constant 10. -/
theorem simulated_stress_formula (radius W : ℚ) :
    simulated_stress radius W = 10 * radius / W := rfl

/-- C2: with N > 0 trials, each integral cell's result equals
domainMeasure * (sum of integrand values / N), with domain measures
(5-1) = 4, (3-2) = 1 and (6-4)*(1-0) = 2 respectively. -/
theorem integral_estimate_is_measure_mul_mean (sin cos : ℚ → ℚ)
    (xs ys : List ℚ) (ps : List (ℚ × ℚ))
    (hx : 0 < xs.length) (hy : 0 < ys.length) (hp : 0 < ps.length) :
    integralEstimate1 xs = measure1 * ((xs.map integrand1).sum / (xs.length : ℚ))
    ∧ integralEstimate2 sin ys
        = measure2 * ((ys.map (integrand2 sin)).sum / (ys.length : ℚ))
    ∧ integralEstimate2D cos ps
        = measure2D * ((ps.map (integrand2D cos)).sum / (ps.length : ℚ))
    ∧ measure1 = 5 - 1 ∧ measure1 = 4
    ∧ measure2 = 3 - 2 ∧ measure2 = 1
    ∧ measure2D = (6 - 4) * (1 - 0) ∧ measure2D = 2 := by
  refine ⟨?_, ?_, ?_, rfl, by norm_num [measure1], rfl, by norm_num [measure2],
    by norm_num [measure2D], by norm_num [measure2D]⟩
  · rw [integralEstimate1, accumLoop_eq_sum, zero_add, mul_div_assoc]
  · rw [integralEstimate2, accumLoop_eq_sum, zero_add, mul_div_assoc]
  · rw [integralEstimate2D, accumLoop_eq_sum, zero_add, mul_div_assoc]

/-- Witness for C2 at the one-sample lists [2], [2], [(2, 2)] with the oracle
sin and cos functions constantly 0. -/
theorem integral_estimate_is_measure_mul_mean_witness :
    integralEstimate1 [2]
        = measure1 * ((([2] : List ℚ).map integrand1).sum / (([2] : List ℚ).length : ℚ))
    ∧ integralEstimate2 (fun _ => 0) [2]
        = measure2 * ((([2] : List ℚ).map (integrand2 fun _ => 0)).sum
            / (([2] : List ℚ).length : ℚ))
    ∧ integralEstimate2D (fun _ => 0) [(2, 2)]
        = measure2D * ((([((2 : ℚ), (2 : ℚ))]).map (integrand2D fun _ => 0)).sum
            / (([((2 : ℚ), (2 : ℚ))]).length : ℚ))
    ∧ measure1 = 5 - 1 ∧ measure1 = 4
    ∧ measure2 = 3 - 2 ∧ measure2 = 1
    ∧ measure2D = (6 - 4) * (1 - 0) ∧ measure2D = 2 :=
  integral_estimate_is_measure_mul_mean (fun _ => 0) (fun _ => 0) [2] [2] [(2, 2)]
    (by simp) (by simp) (by simp)

/-- The single-pass counting loop over zipped samples agrees with the
vectorized materialize-then-reduce count. -/
theorem failLoop_zip_eq_vecFailures :
    ∀ ss ys : List ℚ, failLoop (ss.zip ys) 0 = vecFailures ss ys := by
  intro ss
  induction ss with
  | nil => intro ys; simp [failLoop, vecFailures]
  | cons s rest ih =>
      intro ys
      cases ys with
      | nil => simp [failLoop, vecFailures]
      | cons y yt =>
          simp only [List.zip_cons_cons, failLoop, vecFailures, List.map_cons,
            List.sum_cons]
          rw [failLoop_acc, show List.zipWith Prod.mk rest yt = rest.zip yt from rfl,
            ih yt]
          by_cases h : s > y <;> simp [vecFailures, h]

/-- C6: aggregating by the single-pass loop with a running count and by first
materializing all N per-trial stresses and strengths and then reducing (the
vectorized cell) produce the same count and the same final probability. -/
theorem loop_agrees_with_vectorized (radius W strength : List ℚ)
    (h : (vecStress radius W).length = strength.length) :
    failLoop ((vecStress radius W).zip strength) 0
        = vecFailures (vecStress radius W) strength
    ∧ failureProbability ((vecStress radius W).zip strength)
        = vecProbability (vecStress radius W) strength := by
  refine ⟨failLoop_zip_eq_vecFailures _ _, ?_⟩
  rw [failureProbability, vecProbability, failLoop_zip_eq_vecFailures,
    List.length_zip, h, Nat.min_self]

/-- Witness for C6 on concrete one-element arrays. -/
theorem loop_agrees_with_vectorized_witness :
    failLoop ((vecStress [60] [1]).zip [200]) 0
        = vecFailures (vecStress [60] [1]) [200]
    ∧ failureProbability ((vecStress [60] [1]).zip [200])
        = vecProbability (vecStress [60] [1]) [200] :=
  loop_agrees_with_vectorized [60] [1] [200] (by simp [vecStress])

/-- C5 counterexample: with the draws coming from the shared global generator
(no seed is ever set in the notebook), two repeated single-threaded
invocations of the failure-probability computation consume successive
portions of the stream and, on the concrete stream `gEx` with N = 1, return
different probability estimates (1 versus 0), so the run is not
bit-reproducible across repeated invocations. -/
theorem repeated_invocations_not_reproducible :
    (runFailureExpGlobal gEx 0 1).1 ≠ (runFailureExpGlobal gEx 3 1).1 := by
  norm_num [runFailureExpGlobal, globalTrials, failureProbability, failLoop,
    simulated_stress, gEx]

/-- The trial lists of two runs coincide whenever the two streams agree on the
3N values each run consumes from its cursor on. -/
theorem globalTrials_congr :
    ∀ (N p1 p2 : ℕ) (g1 g2 : ℕ → ℚ),
      (∀ i, i < 3 * N → g1 (p1 + i) = g2 (p2 + i)) →
      globalTrials g1 p1 N = globalTrials g2 p2 N := by
  intro N
  induction N with
  | zero => intro p1 p2 g1 g2 _; rfl
  | succ n ih =>
      intro p1 p2 g1 g2 h
      have h0 : g1 p1 = g2 p2 := by
        have := h 0 (by omega); simpa using this
      have h1 : g1 (p1 + 1) = g2 (p2 + 1) := h 1 (by omega)
      have h2 : g1 (p1 + 2) = g2 (p2 + 2) := h 2 (by omega)
      simp only [globalTrials]
      rw [h0, h1, h2]
      refine congrArg _ (ih (p1 + 3) (p2 + 3) g1 g2 ?_)
      intro i hi
      have := h (3 + i) (by omega)
      have e1 : p1 + (3 + i) = p1 + 3 + i := by omega
      have e2 : p2 + (3 + i) = p2 + 3 + i := by omega
      rw [e1, e2] at this
      exact this

/-- C5 amended: the probability estimate of a run is determined by the 3N
global-generator values the run consumes, so two single-threaded invocations
return identical estimates exactly when the global generator is in a state
yielding the same draws (e.g. after reseeding the global state); the
notebook's sampler takes no seed, so back-to-back invocations, which advance
the shared global stream, need not agree. -/
theorem failure_experiment_determined_by_consumed_draws
    (g1 g2 : ℕ → ℚ) (p1 p2 N : ℕ)
    (h : ∀ i, i < 3 * N → g1 (p1 + i) = g2 (p2 + i)) :
    (runFailureExpGlobal g1 p1 N).1 = (runFailureExpGlobal g2 p2 N).1 := by
  simp only [runFailureExpGlobal]
  rw [globalTrials_congr N p1 p2 g1 g2 h]

/-- Witness for the amended C5: a constant stream read at two different
cursors yields the same estimate. -/
theorem failure_experiment_determined_by_consumed_draws_witness :
    (runFailureExpGlobal (fun _ => (5 : ℚ)) 0 1).1
        = (runFailureExpGlobal (fun _ => (5 : ℚ)) 7 1).1 :=
  failure_experiment_determined_by_consumed_draws (fun _ => 5) (fun _ => 5) 0 7 1
    (fun _ _ => rfl)

/-- C7: the spec-modelled Sampler draws `Uniform{low, high}` values in the
half-open interval [low, high) when low < high (for a unit draw u in [0, 1)),
and fails with `InvalidParameter` when low ≥ high. -/
theorem uniform_draw_contract (nt : ℚ → ℚ) (low high u : ℚ) :
    (low < high → 0 ≤ u → u < 1 →
      draw nt (DistSpec.uniform low high) u = Except.ok (low + (high - low) * u)
      ∧ low ≤ low + (high - low) * u ∧ low + (high - low) * u < high)
    ∧ (high ≤ low →
      draw nt (DistSpec.uniform low high) u = Except.error MCError.invalidParameter) := by
  constructor
  · intro hlt hu0 hu1
    refine ⟨by simp [draw, hlt], ?_, ?_⟩
    · nlinarith [mul_nonneg (le_of_lt (sub_pos.mpr hlt)) hu0]
    · nlinarith [mul_lt_mul_of_pos_left hu1 (sub_pos.mpr hlt)]
  · intro hle
    simp [draw, not_lt.mpr hle]

/-- Witness for C7: a valid draw from Uniform{0, 1} at u = 1/2 and a rejected
draw from Uniform{1, 0}. -/
theorem uniform_draw_contract_witness :
    (draw (fun _ => 0) (DistSpec.uniform 0 1) (1 / 2)
        = Except.ok ((0 : ℚ) + (1 - 0) * (1 / 2))
      ∧ (0 : ℚ) ≤ 0 + (1 - 0) * (1 / 2) ∧ (0 : ℚ) + (1 - 0) * (1 / 2) < 1)
    ∧ draw (fun _ => 0) (DistSpec.uniform 1 0) (1 / 2)
        = Except.error MCError.invalidParameter :=
  ⟨(uniform_draw_contract (fun _ => 0) 0 1 (1 / 2)).1 (by norm_num) (by norm_num)
      (by norm_num),
    (uniform_draw_contract (fun _ => 0) 1 0 (1 / 2)).2 (by norm_num)⟩

/-- The spec-modelled run produces exactly N trials. -/
theorem globalTrials_length (g : ℕ → ℚ) :
    ∀ pos N, (globalTrials g pos N).length = N := by
  intro pos N
  induction N generalizing pos with
  | zero => rfl
  | succ n ih => simp [globalTrials, ih]

/-- C8: the spec-modelled experiment with N = 0 fails with `InvalidParameter`
without consulting the sample stream (so before any trial executes), while
N = 1 executes without error and produces a valid Result: probability in
[0, 1] and nTrials = 1. -/
theorem experiment_boundary_N0_N1 (g : ℕ → ℚ) :
    runFailureProbabilityExperiment g 0 = Except.error MCError.invalidParameter
    ∧ (∀ g2, runFailureProbabilityExperiment g 0
        = runFailureProbabilityExperiment g2 0)
    ∧ ∃ r, runFailureProbabilityExperiment g 1 = Except.ok r
        ∧ 0 ≤ r.probability ∧ r.probability ≤ 1 ∧ r.nTrials = 1 := by
  refine ⟨rfl, fun g2 => rfl, ⟨⟨failureProbability (globalTrials g 0 1), 1⟩, rfl, ?_, ?_, rfl⟩⟩
  · exact failureProbability_nonneg _
  · exact failureProbability_le_one _ (by rw [globalTrials_length]; omega)

/-- Threading the accumulator through the float64 failure loop just adds it at
the end. -/
theorem failLoopFV_acc (l : List (FV × FV)) :
    ∀ a, failLoopFV l a = a + failLoopFV l 0 := by
  induction l with
  | nil => intro a; simp [failLoopFV]
  | cons t rest ih =>
      intro a
      obtain ⟨s, y⟩ := t
      by_cases h : s.gt y
      · simp only [failLoopFV, if_pos h]
        rw [ih (a + 1), ih (0 + 1)]
        omega
      · simp only [failLoopFV, if_neg h]
        exact ih a

/-- The float64 failure count never exceeds the number of trials processed:
the loop runs to completion over all trials, non-finite values included. -/
theorem failLoopFV_le_length (l : List (FV × FV)) : failLoopFV l 0 ≤ l.length := by
  induction l with
  | nil => simp [failLoopFV]
  | cons t rest ih =>
      obtain ⟨s, y⟩ := t
      by_cases h : s.gt y
      · simp only [failLoopFV, if_pos h, List.length_cons]
        rw [failLoopFV_acc rest (0 + 1)]
        omega
      · simp only [failLoopFV, if_neg h, List.length_cons]
        omega

/-- A NaN stress compares false against every strength. -/
theorem FV_nan_gt (v : FV) : FV.gt FV.nan v = false := by
  cases v <;> rfl

/-- C9: a trial drawing wall thickness exactly zero makes the hoop-stress
evaluator produce Infinity rather than throwing; Infinity > finite strength is
true under float64 comparison, so the degenerate trial counts as one failure,
and the loop still processes every remaining trial (the count over the whole
list stays defined and bounded by N). -/
theorem infinity_trial_does_not_abort (radius strength : ℚ)
    (rest : List (FV × FV)) (h : 0 < radius) :
    simulated_stressFV radius 0 = FV.inf
    ∧ FV.gt FV.inf (FV.fin strength) = true
    ∧ failLoopFV ((FV.inf, FV.fin strength) :: rest) 0 = 1 + failLoopFV rest 0
    ∧ failLoopFV ((FV.inf, FV.fin strength) :: rest) 0
        ≤ ((FV.inf, FV.fin strength) :: rest).length := by
  have hpos : (10 : ℚ) * radius > 0 := by positivity
  refine ⟨by simp [simulated_stressFV, hpos], rfl, ?_, failLoopFV_le_length _⟩
  show failLoopFV rest (if FV.gt FV.inf (FV.fin strength) then 0 + 1 else 0)
      = 1 + failLoopFV rest 0
  rw [if_pos (show FV.gt FV.inf (FV.fin strength) = true from rfl),
    failLoopFV_acc rest (0 + 1)]

/-- Witness for C9 at radius 1, strength 200 and no further trials. -/
theorem infinity_trial_does_not_abort_witness :
    simulated_stressFV 1 0 = FV.inf
    ∧ FV.gt FV.inf (FV.fin 200) = true
    ∧ failLoopFV ((FV.inf, FV.fin 200) :: []) 0 = 1 + failLoopFV [] 0
    ∧ failLoopFV ((FV.inf, FV.fin 200) :: []) 0
        ≤ ((FV.inf, FV.fin 200) :: ([] : List (FV × FV))).length :=
  infinity_trial_does_not_abort 1 200 [] (by norm_num)

/-- C10: both aggregators divide by exactly the configured number of trials N:
the failure probability's denominator is the full trial-list length even over
float64 values, prepending a NaN trial leaves the numerator unchanged but
still enlarges the denominator to N + 1 (no trial is excluded for being
non-finite), and the integral estimate's denominator is likewise the full
sample count. -/
theorem denominator_is_configured_N (trials : List (FV × FV)) (xs : List ℚ)
    (N M : ℕ) (v : FV) (h1 : trials.length = N) (h2 : xs.length = M) :
    failureProbabilityFV trials = (failLoopFV trials 0 : ℚ) / (N : ℚ)
    ∧ failureProbabilityFV ((FV.nan, v) :: trials)
        = (failLoopFV trials 0 : ℚ) / ((N : ℚ) + 1)
    ∧ integralEstimate1 xs = measure1 * accumLoop integrand1 xs 0 / (M : ℚ) := by
  refine ⟨by rw [failureProbabilityFV, h1], ?_, by rw [integralEstimate1, h2]⟩
  have hnan : failLoopFV ((FV.nan, v) :: trials) 0 = failLoopFV trials 0 := by
    show failLoopFV trials (if FV.gt FV.nan v then 0 + 1 else 0) = failLoopFV trials 0
    rw [FV_nan_gt, if_neg (by simp)]
  rw [failureProbabilityFV, hnan, List.length_cons, h1]
  push_cast
  ring_nf

/-- Witness for C10 at a one-trial float64 list containing an Infinity stress
and the one-sample list [2]. -/
theorem denominator_is_configured_N_witness :
    failureProbabilityFV [(FV.inf, FV.fin 1)]
        = (failLoopFV [(FV.inf, FV.fin 1)] 0 : ℚ) / ((1 : ℕ) : ℚ)
    ∧ failureProbabilityFV ((FV.nan, FV.nan) :: [(FV.inf, FV.fin 1)])
        = (failLoopFV [(FV.inf, FV.fin 1)] 0 : ℚ) / (((1 : ℕ) : ℚ) + 1)
    ∧ integralEstimate1 [2] = measure1 * accumLoop integrand1 [2] 0 / ((1 : ℕ) : ℚ) :=
  denominator_is_configured_N [(FV.inf, FV.fin 1)] [2] 1 1 FV.nan rfl rfl

end MC
